import Mathlib

/-!
Verification of the claims C1 to C10 against the GnuPG sources of this
repository: armor.c (the armor filter: clearsigned fake literal packets,
one-pass-signature synthesis, radix-64 decoding with CRC-24) and
qualified.c together with mainproc.c (qualified-signature list lookup,
the packet sequencer and signature checking).

The C functions are shallowly embedded as executable Lean functions over
byte lists (a byte is a Nat below 256; end of file is the end of the
list).  Streaming functions that the filter framework calls repeatedly
are modelled for one underflow call whose buffer is large enough for the
whole remaining input; this is noted at each definition it concerns.
External collaborators (iobuf, crypto, key lookup, kbnode.c) appear as
parameters or as the trivial operations the spec ascribes to them.
-/

set_option maxRecDepth 20000

/-! ## Error codes

G10Rc models the g10 error codes that matter to the claims (0 is ok and
-1 is the EOF sentinel in the source; other constructors stand for the
distinct G10ERR constants). -/

inductive G10Rc where
  | ok
  | eof
  | invalidArmor
  | unexpected
  | noSeckey
  | pubkeyAlgo
  | digestAlgoErr
  | sigClassErr
  | badSign
  deriving DecidableEq

/-! ## armor.c: trim_trailing_spaces and the clearsign fake packet -/

/-- Characters stripped by trim_trailing_spaces in armor.c: the strchr
set is space, tab, carriage return and line feed. -/
def isTrimChar (c : Nat) : Bool :=
  c == 32 || c == 9 || c == 13 || c == 10

/-- trim_trailing_spaces from armor.c: the source marks the start of the
final run of whitespace characters and truncates the line there, which
is the same as dropping the maximal trailing run. -/
def trim_trailing_spaces (l : List Nat) : List Nat :=
  (l.reverse.dropWhile isTrimChar).reverse

/-- What fake_packet does with one trimmed line: skip the two dash-escape
bytes, terminate the cleartext, or emit the line as it is. -/
inductive LineAct where
  | skip2
  | terminate
  | plain
  deriving DecidableEq

/-- The per-line test of fake_packet in armor.c.  For a trimmed line p of
length n the source tests, in this order: n greater than 2 and p starting
with a dash; then p[1] a blank and not_dash_escaped unset (dash escaped,
position advanced by two - an irregular escape only logs a warning); then
n at least 15 and p[1..3] dashes (an armor header line ends the cleartext
even when is_armor_header does not recognize BEGIN PGP SIGNATURE, which
only logs). -/
def lineAction (nde : Bool) (t : List Nat) : LineAct :=
  if 2 < t.length ∧ t.headD 0 = 45 then
    if t.getD 1 0 = 32 ∧ nde = false then .skip2
    else if 15 ≤ t.length ∧ t.getD 1 0 = 45 ∧ t.getD 2 0 = 45 ∧ t.getD 3 0 = 45 then
      .terminate
    else .plain
  else .plain

/-- The line loop of fake_packet, at line granularity: each input line
(without its line feed, as delivered by iobuf_read_line) is trimmed,
possibly unescaped, and emitted followed by CR LF; an armor header line
stops the loop.  The boolean records whether the loop was stopped by such
a line (lastline in the source) rather than by end of file.  This models
one underflow call whose buffer holds the whole cleartext. -/
def fakeLines (nde : Bool) : List (List Nat) → (List Nat × Bool)
  | [] => ([], false)
  | l :: ls =>
    let t := trim_trailing_spaces l
    match lineAction nde t with
    | .terminate => ([], true)
    | .skip2 =>
      let q := fakeLines nde ls
      (t.drop 2 ++ [13, 10] ++ q.1, q.2)
    | .plain =>
      let q := fakeLines nde ls
      (t ++ [13, 10] ++ q.1, q.2)

/-- One whole chunk written by fake_packet: the two length-header bytes,
the payload, and, on the terminating path, the two zero bytes of the
ending length header - which the source writes only when both length
bytes are nonzero (the test is buf[0] and buf[1], although the comment
says: only if we have some text).  The assert len at least 4 in the
source fails when the armor line arrives before any payload byte, hence
the none result there. -/
def fake_packet_chunk (nde : Bool) (lines : List (List Nat)) : Option (List Nat) :=
  let q := fakeLines nde lines
  if q.2 then
    if q.1.length < 2 then none
    else
      let p := q.1.dropLast.dropLast
      let b0 := (p.length >>> 8) &&& 0xff
      let b1 := p.length &&& 0xff
      some ([b0, b1] ++ p ++ (if b0 ≠ 0 ∧ b1 ≠ 0 then [0, 0] else []))
  else
    some ([(q.1.length >>> 8) &&& 0xff, q.1.length &&& 0xff] ++ q.1)

/-- The bytes of the line BEGIN PGP SIGNATURE framed by five dashes on
each side, used as concrete terminating line in the examples. -/
def sigLineBytes : List Nat :=
  [45, 45, 45, 45, 45,
   66, 69, 71, 73, 78, 32, 80, 71, 80, 32,
   83, 73, 71, 78, 65, 84, 85, 82, 69,
   45, 45, 45, 45, 45]

/-! ## armor.c: synthesis of the one-pass signature packets

Digest algorithm identifiers from cipher.h (not under src; the OpenPGP
registry values used by GnuPG): MD5 is 1, SHA1 is 2, RIPEMD160 is 3,
TIGER is 6. -/

/-- One iteration of the do-while loop in armor_filter that picks the
next hash from the bitmask: bit 1 RIPEMD160, bit 2 SHA1, bit 4 MD5,
bit 8 TIGER, each branch clearing its bit; the final branch (unknown)
is unreachable once the mask was reduced to the low four bits. -/
def pickHash (h : Nat) : Nat × Nat :=
  if h &&& 1 ≠ 0 then (3, h &&& 14)
  else if h &&& 2 ≠ 0 then (2, h &&& 13)
  else if h &&& 4 ≠ 0 then (1, h &&& 11)
  else if h &&& 8 ≠ 0 then (6, h &&& 7)
  else (0, h)

/-- The do-while loop of armor_filter emitting one old-format one-pass
signature packet per remaining hash bit: CTB 0x90, length 13, version 3,
signature class 0x01, the digest algorithm, public-key algorithm 0,
eight zero key-id bytes, and a last-one byte that is 1 exactly when no
hash bit remains.  Four units of fuel suffice since the mask has at most
four bits. -/
def synthLoop : Nat → Nat → List Nat
  | 0, _ => []
  | f + 1, h =>
    let p := pickHash h
    [0x90, 13, 3, 1, p.1, 0] ++ List.replicate 8 0 ++
      [if p.2 = 0 then 1 else 0] ++
      (if p.2 = 0 then [] else synthLoop f p.2)

/-- The effective hash mask: armor_filter masks the detected hashes to
the low four bits and defaults to MD5 (bit 4) when none is set. -/
def effHashes (h : Nat) : Nat :=
  if h &&& 15 = 0 then 4 else h &&& 15

/-- The full one-pass packet block armor_filter synthesizes on entering
faked (clearsigned) mode. -/
def onepassSynth (h : Nat) : List Nat :=
  synthLoop 4 (effHashes h)

/-- One one-pass signature packet as the claim describes it: class 0x01,
key id zero, public-key algorithm zero, with the given digest algorithm
and last-packet flag (framing bytes as in the source). -/
def onePassPkt (algo lastFlag : Nat) : List Nat :=
  [0x90, 13, 3, 1, algo, 0] ++ List.replicate 8 0 ++ [lastFlag]

/-- The enabled digest algorithms read off the mask in the order of the
list RIPEMD160, SHA1, MD5, TIGER. -/
def enabledAlgosFwd (h : Nat) : List Nat :=
  (if h &&& 1 ≠ 0 then [3] else []) ++ (if h &&& 2 ≠ 0 then [2] else []) ++
  (if h &&& 4 ≠ 0 then [1] else []) ++ (if h &&& 8 ≠ 0 then [6] else [])

/-- The order the words of claim C2 prescribe: the reverse of the list
RIPEMD160, SHA1, MD5, TIGER restricted to the enabled hashes. -/
def claimAlgosRev (h : Nat) : List Nat :=
  (enabledAlgosFwd h).reverse

/-- One one-pass packet per listed algorithm, only the final packet
carrying the is-last flag, per the words of claim C2. -/
def specOnePassSeq : List Nat → List Nat
  | [] => []
  | [a] => onePassPkt a 1
  | a :: rest => onePassPkt a 0 ++ specOnePassSeq rest

/-! ## armor.c: the radix-64 decoder and its CRC-24 -/

/-- The runtime-initialized asctobin table: the inverse of the standard
base64 alphabet, 255 marking an invalid character. -/
def asctobin (c : Nat) : Nat :=
  if 65 ≤ c ∧ c ≤ 90 then c - 65
  else if 97 ≤ c ∧ c ≤ 122 then c - 97 + 26
  else if 48 ≤ c ∧ c ≤ 57 then c - 48 + 52
  else if c = 43 then 62
  else if c = 47 then 63
  else 255

/-- The CRC table built by initialize() in armor.c: entry 0 is 0, entry 1
is the polynomial, and entries 2j and 2j+1 derive from entry j by a left
shift, one of the pair XORed with the polynomial 0x864CFB according to
bit 23 of entry j.  Eight halvings of fuel cover every index below 256. -/
def crcTableAux : Nat → Nat → Nat
  | _, 0 => 0
  | 0, _ => 0
  | f + 1, n =>
    let t := crcTableAux f (n / 2)
    if t &&& 0x800000 ≠ 0 then
      if n % 2 = 0 then (t <<< 1) ^^^ 0x864CFB else t <<< 1
    else
      if n % 2 = 0 then t <<< 1 else (t <<< 1) ^^^ 0x864CFB

/-- crc_table lookup. -/
def crc_table (n : Nat) : Nat := crcTableAux 8 n

/-- One CRC-24 step as written in radix64_read: shift the running value,
XOR the table entry indexed by the XOR of the top value byte with the
data byte, and mask to 24 bits. -/
def crcUpd (crc b : Nat) : Nat :=
  ((crc <<< 8) ^^^ crc_table (((crc >>> 16) &&& 0xff) ^^^ b)) &&& 0xffffff

/-- CRC-24 over a byte list. -/
def crcBytes (crc : Nat) : List Nat → Nat
  | [] => crc
  | b :: r => crcBytes (crcUpd crc b) r

/-- The CRCINIT constant 0xB704CE. -/
def CRCINIT : Nat := 0xB704CE

/-- The characters the decoder body skips: LF, space, CR, TAB. -/
def skipWs (c : Nat) : Bool :=
  c == 10 || c == 32 || c == 13 || c == 9

/-- The characters skipped between the pad and the CRC: the whitespace
set together with further pad characters. -/
def skip61 (c : Nat) : Bool :=
  c == 10 || c == 32 || c == 13 || c == 9 || c == 61

/-- The main decode loop of radix64_read: whitespace is skipped, a pad
character 61 stops the loop (emitting the leftover value when idx is 1,
as the source does), an invalid character is logged and skipped, and a
valid character is folded into the 4-to-3 group decoding.  Returns the
produced bytes, whether the pad was seen (checkcrc), and the remaining
input.  This models one call whose buffer is large enough. -/
def rad64Body : List Nat → Nat → Nat → (List Nat × Bool × List Nat)
  | [], _, _ => ([], false, [])
  | c :: r, idx, val =>
    if skipWs c then rad64Body r idx val
    else if c = 61 then ((if idx = 1 then [val] else []), true, r)
    else if asctobin c = 255 then rad64Body r idx val
    else
      let d := asctobin c
      if idx = 0 then rad64Body r 1 (d <<< 2)
      else if idx = 1 then
        let q := rad64Body r 2 ((d <<< 4) &&& 0xf0)
        ((val ||| ((d >>> 4) &&& 3)) :: q.1, q.2)
      else if idx = 2 then
        let q := rad64Body r 3 ((d <<< 6) &&& 0xc0)
        ((val ||| ((d >>> 2) &&& 15)) :: q.1, q.2)
      else
        let b := val ||| (d &&& 0x3f)
        let q := rad64Body r 0 b
        (b :: q.1, q.2)

/-- One switch step of the CRC-reading do-while loop in radix64_read,
assembling mycrc from the four six-bit values; returns the new val and
mycrc. -/
def crcStep (idx d val mycrc : Nat) : Nat × Nat :=
  if idx = 0 then (d <<< 2, mycrc)
  else if idx = 1 then
    let b := val ||| ((d >>> 4) &&& 3)
    ((d <<< 4) &&& 0xf0, mycrc ||| (b <<< 16))
  else if idx = 2 then
    let b := val ||| ((d >>> 2) &&& 15)
    ((d <<< 6) &&& 0xc0, mycrc ||| (b <<< 8))
  else
    let b := val ||| (d &&& 0x3f)
    (b, mycrc ||| b)

/-- The CRC-reading do-while loop of radix64_read.  An invalid character
breaks out (malformed CRC, invalid armor); hitting end of file after a
character was converted breaks out with c equal to -1 (premature eof in
CRC, invalid armor) - note the source fetches one character beyond the
fourth before leaving the loop; after four characters and a successful
fetch the assembled value is compared with the running CRC. -/
def crcLoop (crc : Nat) (c : Nat) (r : List Nat) (idx val mycrc : Nat) : G10Rc :=
  if asctobin c = 255 then G10Rc.invalidArmor
  else
    let s := crcStep idx (asctobin c) val mycrc
    match r with
    | [] => G10Rc.invalidArmor
    | c2 :: r2 =>
      if idx + 1 < 4 then crcLoop crc c2 r2 (idx + 1) s.1 s.2
      else if s.2 = crc then G10Rc.ok else G10Rc.invalidArmor

/-- The CRC check of radix64_read after the pad: skip line feeds, blanks
and pads; end of file here only logs (premature eof, no CRC) and leaves
rc at 0; otherwise run the CRC-reading loop.  The commented-out trailer
check means the END tail line is never examined. -/
def readCRC (crc : Nat) (rest : List Nat) : G10Rc :=
  match rest.dropWhile skip61 with
  | [] => G10Rc.ok
  | c :: r => crcLoop crc c r 0 0 0

/-- radix64_read for one call starting from the freshly initialized
decoder state (crc CRCINIT, idx 0, radbuf 0, as set by check_input), with
a buffer large enough for the whole input: returns the produced bytes and
the return code.  The source sets rc to -1 (EOF) whenever the call
produced no byte, after any CRC verdict. -/
def radix64_read (inp : List Nat) : List Nat × G10Rc :=
  let q := rad64Body inp 0 0
  let rc := if q.2.1 then readCRC (crcBytes CRCINIT q.1) q.2.2 else G10Rc.ok
  (q.1, if q.1 = [] then G10Rc.eof else rc)

/-- The 24-bit CRC encoded by four base64 characters, assembled exactly
as the loop above assembles mycrc. -/
def crc24ofChars (a b c d : Nat) : Nat :=
  let b1 := (asctobin a <<< 2) ||| ((asctobin b >>> 4) &&& 3)
  let b2 := ((asctobin b <<< 4) &&& 0xf0) ||| ((asctobin c >>> 2) &&& 15)
  let b3 := ((asctobin c <<< 6) &&& 0xc0) ||| (asctobin d &&& 0x3f)
  ((0 ||| (b1 <<< 16)) ||| (b2 <<< 8)) ||| b3

/-! ## mainproc.c: the packet sequencer -/

/-- The packet types the sequencer dispatches on, with the external
results that drive the session-key paths: for a public-key encrypted
session key whether the algorithm is ELGAMAL, DSA or RSA and whether
get_session_key succeeded; for a symmetric one the embedded session key
length (nonzero is unsupported); for an encrypted packet the result of
decrypt_data. -/
inductive Pkt where
  | publicKey
  | secretKey
  | publicSubkey
  | secretSubkey
  | userId
  | signature
  | onePassSig
  | pubkeyEnc (algoOk : Bool) (skOk : Bool)
  | symkeyEnc (seskeylen : Nat)
  | encrypted (decRc : G10Rc)
  | plaintext
  | compressed
  | marker
  deriving DecidableEq

/-- The three entry modes of do_proc_packets (opt.list_packets is taken
as unset, the normal operation all three entry points use). -/
inductive Mode where
  | full
  | sigsOnly
  | encryptOnly
  deriving DecidableEq

/-- The sequencer context fields the claims are about: the current
kbnode list (head is the root packet), whether a DEK is held, the
last_was_session_key lookback (0, 1 or 2) and the have_data flag. -/
structure SeqState where
  list : List Pkt
  dek : Bool
  lastWasSessionKey : Nat
  haveData : Bool
  deriving DecidableEq

/-- Whether a packet is an encrypted-data packet. -/
def Pkt.isEncrypted : Pkt → Bool
  | .encrypted _ => true
  | _ => false

/-- Whether a packet is a session-key packet (public-key or symmetric
encrypted session key). -/
def Pkt.isSessionKey : Pkt → Bool
  | .pubkeyEnc _ _ => true
  | .symkeyEnc _ => true
  | _ => false

/-- release_list: the open list is handed to proc_tree (an external
effect) and freed. -/
def release_list (s : SeqState) : SeqState :=
  { s with list := [] }

/-- add_onepass_sig from mainproc.c.  With a non-empty list whose root is
not a one-pass packet the source logs, releases the list and then calls
add_kbnode on the released list; add_kbnode lives in kbnode.c, which is
not under src, and is modelled from the spec as the ordered append the
data model prescribes (on the just-released empty list this starts a new
one-node list). -/
def add_onepass_sig (s : SeqState) (p : Pkt) : SeqState :=
  match s.list with
  | [] => { s with list := [p] }
  | q :: t =>
    if q = Pkt.onePassSig then { s with list := (q :: t) ++ [p] }
    else { s with list := [p] }

/-- add_user_id: an empty list is an orphaned user id (logged, packet
dropped); otherwise the node is appended, with no look at the root. -/
def add_user_id (s : SeqState) (p : Pkt) : SeqState :=
  if s.list = [] then s else { s with list := s.list ++ [p] }

/-- add_subkey: as add_user_id (subkey without mainkey is only logged). -/
def add_subkey (s : SeqState) (p : Pkt) : SeqState :=
  if s.list = [] then s else { s with list := s.list ++ [p] }

/-- add_signature: a signature with no open list starts one (the
PGP-style signature-first layout); otherwise it is appended at the end. -/
def add_signature (s : SeqState) (p : Pkt) : SeqState :=
  if s.list = [] then { s with list := [p] }
  else { s with list := s.list ++ [p] }

/-- proc_symkey_enc: a packet carrying an embedded session key is
unsupported (logged, nothing changes); otherwise last_was_session_key
becomes 2 and the DEK is derived from the passphrase. -/
def proc_symkey_enc (s : SeqState) (seskeylen : Nat) : SeqState :=
  if seskeylen ≠ 0 then s
  else { s with lastWasSessionKey := 2, dek := true }

/-- proc_pubkey_enc: last_was_session_key becomes 1; for a supported
algorithm any pending DEK is freed and a fresh one allocated, deleted
again when get_session_key fails; an unsupported algorithm leaves the
DEK untouched. -/
def proc_pubkey_enc (s : SeqState) (algoOk skOk : Bool) : SeqState :=
  let s1 := { s with lastWasSessionKey := 1 }
  if algoOk then { s1 with dek := skOk } else s1

/-- What proc_encrypted did, beyond the state change: the result value
it classifies, whether decrypt_data ran at all, and whether the DEK it
used came from the conventional passphrase prompt. -/
structure EncOutcome where
  result : G10Rc
  usedConventionalDek : Bool
  decryptRan : Bool
  dekAfter : Bool
  lastAfter : Nat
  deriving DecidableEq

/-- proc_encrypted from mainproc.c: with no DEK and no preceding
session-key packet a DEK is derived from the passphrase (old
conventional encryption) and decrypt_data runs; with no DEK after a
session-key packet the result is G10ERR_NO_SECKEY and decrypt_data is
skipped; with a held DEK decrypt_data runs with it.  In every case the
DEK is freed and nulled and last_was_session_key reset to 0. -/
def proc_encrypted_model (dek : Bool) (lastWas : Nat) (decRc : G10Rc) : EncOutcome :=
  if dek = false ∧ lastWas = 0 then
    { result := decRc, usedConventionalDek := true, decryptRan := true,
      dekAfter := false, lastAfter := 0 }
  else if dek = false then
    { result := G10Rc.noSeckey, usedConventionalDek := false, decryptRan := false,
      dekAfter := false, lastAfter := 0 }
  else
    { result := decRc, usedConventionalDek := false, decryptRan := true,
      dekAfter := false, lastAfter := 0 }

/-- The state effect of proc_encrypted. -/
def proc_encrypted_st (s : SeqState) (decRc : G10Rc) : SeqState :=
  let o := proc_encrypted_model s.dek s.lastWasSessionKey decRc
  { s with dek := o.dekAfter, lastWasSessionKey := o.lastAfter }

/-- proc_plaintext: digest setup and handle_plaintext are external; the
sequencer state change is resetting last_was_session_key. -/
def proc_plaintext_st (s : SeqState) : SeqState :=
  { s with lastWasSessionKey := 0 }

/-- proc_compressed: decompression is external; the state change is
resetting last_was_session_key. -/
def proc_compressed_st (s : SeqState) : SeqState :=
  { s with lastWasSessionKey := 0 }

/-- The outcome of dispatching one packet: either the loop continues
with the new state, or it breaks to the leave label with a code (the
UNEXPECTED paths). -/
inductive StepRes where
  | cont (s : SeqState)
  | stop (s : SeqState) (rc : G10Rc)
  deriving DecidableEq

/-- The state carried by a step result. -/
def StepRes.st : StepRes → SeqState
  | .cont s => s
  | .stop s _ => s

/-- Whether the step broke out of the loop. -/
def StepRes.stopped : StepRes → Bool
  | .cont _ => false
  | .stop _ _ => true

/-- The pre-dispatch hygiene at the top of the do_proc_packets loop: a
held DEK is freed (burnt) when the next packet is not an encrypted-data
packet. -/
def predispatch (s : SeqState) (p : Pkt) : SeqState :=
  if s.dek = true ∧ p.isEncrypted = false then { s with dek := false } else s

/-- The per-mode switch of do_proc_packets. -/
def dispatch (m : Mode) (s : SeqState) (p : Pkt) : StepRes :=
  match m with
  | .full =>
    match p with
    | .publicKey => .cont { (release_list s) with list := [p] }
    | .secretKey => .cont { (release_list s) with list := [p] }
    | .publicSubkey => .cont (add_subkey s p)
    | .secretSubkey => .cont (add_subkey s p)
    | .userId => .cont (add_user_id s p)
    | .signature => .cont (add_signature s p)
    | .onePassSig => .cont (add_onepass_sig s p)
    | .pubkeyEnc a k => .cont (proc_pubkey_enc s a k)
    | .symkeyEnc n => .cont (proc_symkey_enc s n)
    | .encrypted d => .cont (proc_encrypted_st s d)
    | .plaintext => .cont (proc_plaintext_st s)
    | .compressed => .cont (proc_compressed_st s)
    | .marker => .cont s
  | .sigsOnly =>
    match p with
    | .publicKey => .stop s G10Rc.unexpected
    | .secretKey => .stop s G10Rc.unexpected
    | .userId => .stop s G10Rc.unexpected
    | .symkeyEnc _ => .stop s G10Rc.unexpected
    | .pubkeyEnc _ _ => .stop s G10Rc.unexpected
    | .encrypted _ => .stop s G10Rc.unexpected
    | .signature => .cont (add_signature s p)
    | .plaintext => .cont (proc_plaintext_st s)
    | .compressed => .cont (proc_compressed_st s)
    | .onePassSig => .cont (add_onepass_sig s p)
    | _ => .cont s
  | .encryptOnly =>
    match p with
    | .publicKey => .stop s G10Rc.unexpected
    | .secretKey => .stop s G10Rc.unexpected
    | .userId => .stop s G10Rc.unexpected
    | .signature => .cont (add_signature s p)
    | .symkeyEnc n => .cont (proc_symkey_enc s n)
    | .pubkeyEnc a k => .cont (proc_pubkey_enc s a k)
    | .encrypted d => .cont (proc_encrypted_st s d)
    | .plaintext => .cont (proc_plaintext_st s)
    | .compressed => .cont (proc_compressed_st s)
    | .onePassSig => .cont (add_onepass_sig s p)
    | _ => .cont s

/-- The have_data update after the switch: for every packet other than a
signature, have_data records whether this packet was plaintext.  It is
skipped on the goto-leave paths. -/
def haveDataUpd (s : SeqState) (p : Pkt) : SeqState :=
  if p = Pkt.signature then s else { s with haveData := p = Pkt.plaintext }

/-- One full iteration of the do_proc_packets loop for one parsed
packet: pre-dispatch hygiene, the mode switch, and the have_data update
on the continuing paths. -/
def seqStep (m : Mode) (s : SeqState) (p : Pkt) : StepRes :=
  match dispatch m (predispatch s p) p with
  | .cont s1 => .cont (haveDataUpd s1 p)
  | .stop s1 rc => .stop s1 rc

/-- The do_proc_packets loop over a parsed packet stream: returns 0 when
the stream is exhausted and the breaking code when a switch broke out
(the leave cleanup frees list, DEK and digest context and returns rc). -/
def procPackets (m : Mode) (s : SeqState) : List Pkt → G10Rc
  | [] => G10Rc.ok
  | p :: ps =>
    match seqStep m s p with
    | .cont s1 => procPackets m s1 ps
    | .stop _ rc => rc

/-- The zero-initialized context the three entry points allocate. -/
def initState : SeqState :=
  { list := [], dek := false, lastWasSessionKey := 0, haveData := false }

/-- The packets the sigs-only switch rejects with UNEXPECTED. -/
def sigsReject : Pkt → Bool
  | .publicKey => true
  | .secretKey => true
  | .userId => true
  | .symkeyEnc _ => true
  | .pubkeyEnc _ _ => true
  | .encrypted _ => true
  | _ => false

/-- The packets the encrypt-only switch rejects with UNEXPECTED. -/
def encReject : Pkt → Bool
  | .publicKey => true
  | .secretKey => true
  | .userId => true
  | _ => false

/-- The packets that, in full mode, get appended to an open list whose
root is a one-pass signature. -/
def appendPkt : Pkt → Bool
  | .onePassSig => true
  | .signature => true
  | .userId => true
  | .publicSubkey => true
  | .secretSubkey => true
  | _ => false

/-! ## mainproc.c: do_check_sig -/

/-- The external call do_check_sig ends in. -/
inductive SigCheckCall where
  | err (rc : G10Rc)
  | sigCheck (usedCopy : Bool)
  | keySigCheck
  deriving DecidableEq

/-- do_check_sig from mainproc.c, over a signature node with the given
digest algorithm and signature class, the rest abstracted: algoRc is the
check_digest_algo verdict (ok means supported), mdPresent whether the
context holds an accumulated data digest (the detached case opens a
fresh one), root the type of the list root packet.  A zero digest
algorithm returns G10ERR_PUBKEY_ALGO; classes 0 and 1 go to
signature_check with a copy of the data digest or a fresh one; classes
with the top six bits 0x10 (0x10 to 0x13, the mask is AND NOT 3 on a
byte) and classes 0x18, 0x20, 0x30 go to check_key_signature - which
reports self-signatures through its out parameter - provided the root is
a public key or public subkey, else G10ERR_SIG_CLASS; every other class
is G10ERR_SIG_CLASS. -/
def do_check_sig (digestAlgo : Nat) (algoRc : G10Rc) (sc : Nat)
    (mdPresent : Bool) (root : Pkt) : SigCheckCall :=
  if digestAlgo = 0 then .err G10Rc.pubkeyAlgo
  else if algoRc ≠ G10Rc.ok then .err algoRc
  else if sc = 0x00 then .sigCheck mdPresent
  else if sc = 0x01 then .sigCheck mdPresent
  else if sc &&& 0xfc = 0x10 ∨ sc = 0x18 ∨ sc = 0x20 ∨ sc = 0x30 then
    if root = Pkt.publicKey ∨ root = Pkt.publicSubkey then .keySigCheck
    else .err G10Rc.sigClassErr
  else .err G10Rc.sigClassErr

/-! ## qualified.c: the qualified-signature list -/

/-- The gpg_error_t codes qualified.c distinguishes. -/
inductive GpgErr where
  | notFound
  | lineTooLong
  | incompleteLine
  | badData
  deriving DecidableEq

/-- spacep from gpgsm: blank or tab. -/
def spacep (c : Nat) : Bool :=
  c == 32 || c == 9

/-- hexdigitp: a hexadecimal digit in either case. -/
def hexdigitp (c : Nat) : Bool :=
  (48 ≤ c && c ≤ 57) || (97 ≤ c && c ≤ 102) || (65 ≤ c && c ≤ 70)

/-- The upcasing read_list applies: a character at or above lowercase a
is masked with 0xdf, others are kept. -/
def upChar (c : Nat) : Nat :=
  if 97 ≤ c then c &&& 0xdf else c

/-- The fingerprint scan of read_list: consume colons and hex digits
while fewer than 40 hex digits were collected, storing the digits
upcased; returns the key and the remaining characters. -/
def scanFpr (p : List Nat) (j : Nat) : List Nat × List Nat :=
  if j = 40 then ([], p)
  else
    match p with
    | [] => ([], [])
    | c :: r =>
      if c = 58 then scanFpr r j
      else if hexdigitp c then
        let q := scanFpr r (j + 1)
        (upChar c :: q.1, q.2)
      else ([], c :: r)

/-- What read_list makes of one fgets line. -/
inductive LineResult where
  | skip
  | errTooLong
  | errIncomplete
  | errBad
  | entry (key : List Nat)
  deriving DecidableEq

/-- The per-line work of read_list in qualified.c.  The line is a C
string, so everything from the first NUL on is invisible; a line whose
string form is empty yields GPG_ERR_INCOMPLETE_LINE and a nonempty one
not ending in a line feed yields GPG_ERR_LINE_TOO_LONG (the source eats
the rest of the stream line, which cannot matter since the caller stops
on any error).  Leading blanks are skipped; an exhausted, empty or
comment line is skipped.  Then exactly 40 hex digits, colons allowed and
skipped, must be followed by a blank or the line feed, then optional
blanks, then two lowercase letters followed by a blank or the line feed,
else GPG_ERR_BAD_DATA. -/
def read_entry (line : List Nat) : LineResult :=
  let s := line.takeWhile (fun c => c ≠ 0)
  if s = [] then .errIncomplete
  else if s.getLastD 0 ≠ 10 then .errTooLong
  else
    let p := s.dropWhile spacep
    if p.headD 0 = 0 ∨ p.headD 0 = 10 ∨ p.headD 0 = 35 then .skip
    else
      let q := scanFpr p 0
      if q.1.length ≠ 40 ∨ ¬ (spacep (q.2.headD 0) = true ∨ q.2.headD 0 = 10) then
        .errBad
      else
        let r2 := (q.2.drop 1).dropWhile spacep
        let c1 := r2.headD 0
        let c2 := r2.getD 1 0
        let c3 := r2.getD 2 0
        if 97 ≤ c1 ∧ c1 ≤ 122 ∧ 97 ≤ c2 ∧ c2 ≤ 122 ∧ (spacep c3 = true ∨ c3 = 10) then
          .entry q.1
        else .errBad

/-- One fgets call with a 255-byte limit (DIM(line)-1 in the source
reads at most 254 characters): take bytes up to and including the first
line feed, or until the limit or end of file. -/
def readLine : Nat → List Nat → List Nat × List Nat
  | _, [] => ([], [])
  | 0, l => ([], l)
  | k + 1, c :: r =>
    if c = 10 then ([10], r)
    else
      let q := readLine k r
      (c :: q.1, q.2)

/-- Splitting the file into fgets lines; the fuel equal to the byte
count suffices since every fgets consumes at least one byte. -/
def fgetsSplitGo : Nat → List Nat → List (List Nat)
  | 0, _ => []
  | _, [] => []
  | f + 1, c :: r =>
    let q := readLine 254 (c :: r)
    q.1 :: fgetsSplitGo f q.2

/-- The file as the sequence of lines fgets returns. -/
def fgetsSplit (inp : List Nat) : List (List Nat) :=
  fgetsSplitGo inp.length inp

/-- The scan loop of gpgsm_is_in_qualified_list over the fgets lines:
the first error stops the scan; exhausting the list is GPG_ERR_EOF which
the caller maps to GPG_ERR_NOT_FOUND; a key equal to the certificate
fingerprint string returns 0 (modelled as none). -/
def scanLines (fpr : List Nat) : List (List Nat) → Option GpgErr
  | [] => some GpgErr.notFound
  | l :: ls =>
    match read_entry l with
    | .skip => scanLines fpr ls
    | .errTooLong => some GpgErr.lineTooLong
    | .errIncomplete => some GpgErr.incompleteLine
    | .errBad => some GpgErr.badData
    | .entry key => if key = fpr then none else scanLines fpr ls

/-- gpgsm_is_in_qualified_list: fpr is the SHA-1 fingerprint hex string
of the certificate (external); a missing list file makes read_list
return GPG_ERR_EOF at once, mapped to GPG_ERR_NOT_FOUND; otherwise the
file is scanned from the start. -/
def gpgsm_is_in_qualified_list (file : Option (List Nat)) (fpr : List Nat) :
    Option GpgErr :=
  match file with
  | none => some GpgErr.notFound
  | some bytes => scanLines fpr (fgetsSplit bytes)

/-! ## Helper lemmas -/

/-- C2 counterexample: with the Hash header enabling RIPEMD160 and SHA1
(mask 3) the source emits the one-pass packets in the forward order of
the list RIPEMD160, SHA1, MD5, TIGER - RIPEMD160 (algo 3) first - not in
the reverse order the claim states. -/
theorem onepassSynth_cex :
    onepassSynth 3 ≠ specOnePassSeq (claimAlgosRev (effHashes 3)) := by
  decide

/-- C2 amended: for every detected hash mask the synthesized block is
one one-pass signature packet per enabled hash in the forward order of
the list RIPEMD160, SHA1, MD5, TIGER, each with signature class 0x01,
key id zero and public-key algorithm zero, only the last packet carrying
the is-last flag; with no Hash header (or none of the four bits set) the
enabled set defaults to MD5 alone. -/
theorem onepassSynth_order (h : Nat) :
    onepassSynth h = specOnePassSeq (enabledAlgosFwd (effHashes h)) := by
  have hk : effHashes h ≤ 15 := by
    unfold effHashes
    split
    · omega
    · exact Nat.and_le_right
  have hk0 : effHashes h ≠ 0 := by
    unfold effHashes
    split
    · omega
    · assumption
  unfold onepassSynth
  generalize effHashes h = k at hk hk0
  interval_cases k
  · exact absurd rfl hk0
  all_goals decide

/-! ## Claim C3 -/

theorem skip61_of_valid (a : Nat) (h : asctobin a ≠ 255) : skip61 a = false := by
  cases hs : skip61 a
  · rfl
  · exfalso
    have hd : a = 10 ∨ a = 32 ∨ a = 13 ∨ a = 9 ∨ a = 61 := by
      simp [skip61] at hs
      tauto
    rcases hd with rfl | rfl | rfl | rfl | rfl <;> exact h (by decide)

/-- C3 counterexample: the input that is just the CRC line =AAAA after
an empty radix-64 body carries a 24-bit CRC of 0 while the running CRC
of no data is the initial value 0xB704CE, yet the decoder returns the
EOF sentinel, not InvalidArmor: having produced no byte in the call, the
final statement of radix64_read overwrites the CRC verdict with -1. -/
theorem radix64_cex :
    radix64_read [61, 65, 65, 65, 65, 10] = ([], G10Rc.eof) ∧
    crc24ofChars 65 65 65 65 ≠ crcBytes CRCINIT [] ∧
    G10Rc.eof ≠ G10Rc.invalidArmor := by
  decide

/-- C3 amended: after the pad character the decoder skips whitespace and
further pads and then needs four base64 characters and one further input
character for the CRC.  When the call produced at least one byte: the
assembled CRC is compared with the running one (mismatch is
InvalidArmor), end of input after the first CRC character was read is
InvalidArmor, and a non-base64 character among the four is InvalidArmor;
but end of input before any CRC character is only logged and no error
results, and the END tail line is never checked (the check is compiled
out), so nothing after the fifth character matters.  When the call
produced no byte, every verdict is replaced by the EOF sentinel. -/
theorem radix64_crc_amended :
    (∀ (crc : Nat) (rest : List Nat),
       rest.dropWhile skip61 = [] → readCRC crc rest = G10Rc.ok) ∧
    (∀ (crc a b c d x : Nat) (r : List Nat),
       asctobin a ≠ 255 → asctobin b ≠ 255 → asctobin c ≠ 255 → asctobin d ≠ 255 →
       readCRC crc (a :: b :: c :: d :: x :: r) =
         (if crc24ofChars a b c d = crc then G10Rc.ok else G10Rc.invalidArmor)) ∧
    (∀ (crc a : Nat), asctobin a ≠ 255 → readCRC crc [a] = G10Rc.invalidArmor) ∧
    (∀ (crc a b : Nat), asctobin a ≠ 255 → asctobin b ≠ 255 →
       readCRC crc [a, b] = G10Rc.invalidArmor) ∧
    (∀ (crc a b c : Nat), asctobin a ≠ 255 → asctobin b ≠ 255 → asctobin c ≠ 255 →
       readCRC crc [a, b, c] = G10Rc.invalidArmor) ∧
    (∀ (crc a b c d : Nat),
       asctobin a ≠ 255 → asctobin b ≠ 255 → asctobin c ≠ 255 → asctobin d ≠ 255 →
       readCRC crc [a, b, c, d] = G10Rc.invalidArmor) ∧
    (∀ (crc a : Nat) (r : List Nat), asctobin a = 255 → skip61 a = false →
       readCRC crc (a :: r) = G10Rc.invalidArmor) ∧
    (∀ (crc a b : Nat) (r : List Nat), asctobin a ≠ 255 → asctobin b = 255 →
       readCRC crc (a :: b :: r) = G10Rc.invalidArmor) ∧
    (∀ (crc a b c : Nat) (r : List Nat),
       asctobin a ≠ 255 → asctobin b ≠ 255 → asctobin c = 255 →
       readCRC crc (a :: b :: c :: r) = G10Rc.invalidArmor) ∧
    (∀ (crc a b c d : Nat) (r : List Nat),
       asctobin a ≠ 255 → asctobin b ≠ 255 → asctobin c ≠ 255 → asctobin d = 255 →
       readCRC crc (a :: b :: c :: d :: r) = G10Rc.invalidArmor) ∧
    (∀ inp : List Nat,
       (radix64_read inp).1 = [] → (radix64_read inp).2 = G10Rc.eof) := by
  refine ⟨?_, ?_, ?_, ?_, ?_, ?_, ?_, ?_, ?_, ?_, ?_⟩
  · intro crc rest h
    unfold readCRC
    rw [h]
  · intro crc a b c d x r ha hb hc hd
    unfold readCRC
    rw [List.dropWhile_cons_of_neg (by simp [skip61_of_valid a ha])]
    simp [crcLoop, crcStep, ha, hb, hc, hd, crc24ofChars]
  · intro crc a ha
    unfold readCRC
    rw [List.dropWhile_cons_of_neg (by simp [skip61_of_valid a ha])]
    simp [crcLoop, crcStep, ha]
  · intro crc a b ha hb
    unfold readCRC
    rw [List.dropWhile_cons_of_neg (by simp [skip61_of_valid a ha])]
    simp [crcLoop, crcStep, ha, hb]
  · intro crc a b c ha hb hc
    unfold readCRC
    rw [List.dropWhile_cons_of_neg (by simp [skip61_of_valid a ha])]
    simp [crcLoop, crcStep, ha, hb, hc]
  · intro crc a b c d ha hb hc hd
    unfold readCRC
    rw [List.dropWhile_cons_of_neg (by simp [skip61_of_valid a ha])]
    simp [crcLoop, crcStep, ha, hb, hc, hd]
  · intro crc a r ha hs
    unfold readCRC
    rw [List.dropWhile_cons_of_neg (by simp [hs])]
    simp [crcLoop, ha]
  · intro crc a b r ha hb
    unfold readCRC
    rw [List.dropWhile_cons_of_neg (by simp [skip61_of_valid a ha])]
    simp [crcLoop, crcStep, ha, hb]
  · intro crc a b c r ha hb hc
    unfold readCRC
    rw [List.dropWhile_cons_of_neg (by simp [skip61_of_valid a ha])]
    simp [crcLoop, crcStep, ha, hb, hc]
  · intro crc a b c d r ha hb hc hd
    unfold readCRC
    rw [List.dropWhile_cons_of_neg (by simp [skip61_of_valid a ha])]
    simp [crcLoop, crcStep, ha, hb, hc, hd]
  · intro inp h
    unfold radix64_read at h ⊢
    simp only at h ⊢
    rw [h]
    simp

/-- C3 witness: the truncation conjunct of the amended theorem applied
to a single valid base64 character with nothing after it. -/
theorem radix64_crc_amended_w :
    readCRC 0 [65] = G10Rc.invalidArmor :=
  radix64_crc_amended.2.2.1 0 65 (by decide)

/-! ## Claim C4 -/

theorem sigs_step_stop (s : SeqState) (p : Pkt) (h : sigsReject p = true) :
    seqStep Mode.sigsOnly s p = StepRes.stop (predispatch s p) G10Rc.unexpected := by
  cases p <;> simp_all [seqStep, dispatch, sigsReject]

theorem sigs_step_cont (s : SeqState) (p : Pkt) (h : sigsReject p = false) :
    ∃ s1, seqStep Mode.sigsOnly s p = StepRes.cont s1 := by
  cases p <;> simp_all [seqStep, dispatch, sigsReject]

theorem enc_step_stop (s : SeqState) (p : Pkt) (h : encReject p = true) :
    seqStep Mode.encryptOnly s p = StepRes.stop (predispatch s p) G10Rc.unexpected := by
  cases p <;> simp_all [seqStep, dispatch, encReject]

theorem enc_step_cont (s : SeqState) (p : Pkt) (h : encReject p = false) :
    ∃ s1, seqStep Mode.encryptOnly s p = StepRes.cont s1 := by
  cases p <;> simp_all [seqStep, dispatch, encReject]

/-- C4 counterexample: subkey packets are not rejected in either
restricted mode - they fall to the default branch of the switch and are
dropped, so a stream of one PublicSubkey packet runs to the end and
returns 0, not Unexpected as the claim states. -/
theorem procReject_cex :
    procPackets Mode.sigsOnly initState [Pkt.publicSubkey] = G10Rc.ok ∧
    procPackets Mode.encryptOnly initState [Pkt.publicSubkey] = G10Rc.ok ∧
    procPackets Mode.sigsOnly initState [Pkt.secretSubkey] = G10Rc.ok ∧
    procPackets Mode.encryptOnly initState [Pkt.secretSubkey] = G10Rc.ok ∧
    G10Rc.ok ≠ G10Rc.unexpected := by
  decide

/-- C4 amended: in sigs-only mode the loop stops with Unexpected at the
first PublicKey, SecretKey, UserId, SymkeyEnc, PubkeyEnc or Encrypted
packet, and in encrypt-only mode at the first PublicKey, SecretKey or
UserId packet; PublicSubkey and SecretSubkey are not rejected in either
mode (the default branch drops them). -/
theorem procReject_amended :
    (∀ (s : SeqState) (pre : List Pkt) (p : Pkt) (post : List Pkt),
       (∀ q ∈ pre, sigsReject q = false) → sigsReject p = true →
       procPackets Mode.sigsOnly s (pre ++ p :: post) = G10Rc.unexpected) ∧
    (∀ (s : SeqState) (pre : List Pkt) (p : Pkt) (post : List Pkt),
       (∀ q ∈ pre, encReject q = false) → encReject p = true →
       procPackets Mode.encryptOnly s (pre ++ p :: post) = G10Rc.unexpected) := by
  constructor
  · intro s pre p post hpre hp
    induction pre generalizing s with
    | nil => simp [procPackets, sigs_step_stop s p hp]
    | cons q t ih =>
      obtain ⟨s1, hs1⟩ := sigs_step_cont s q (hpre q (by simp))
      simp only [List.cons_append, procPackets, hs1]
      exact ih s1 fun x hx => hpre x (by simp [hx])
  · intro s pre p post hpre hp
    induction pre generalizing s with
    | nil => simp [procPackets, enc_step_stop s p hp]
    | cons q t ih =>
      obtain ⟨s1, hs1⟩ := enc_step_cont s q (hpre q (by simp))
      simp only [List.cons_append, procPackets, hs1]
      exact ih s1 fun x hx => hpre x (by simp [hx])

/-- C4 witness: the amended theorem applied to a signature packet
followed by a PublicKey packet in sigs-only mode. -/
theorem procReject_amended_w :
    procPackets Mode.sigsOnly initState [Pkt.signature, Pkt.publicKey] =
      G10Rc.unexpected :=
  procReject_amended.1 initState [Pkt.signature] Pkt.publicKey []
    (by decide) (by decide)

/-! ## Claim C5 -/

/-- C5 counterexample: for signature class 0x14 - inside the range
0x10..0x17 the claim (and the comment in the source) names - do_check_sig
returns the SigClass error without consulting check_key_signature, since
the mask AND NOT 3 covers only 0x10..0x13. -/
theorem do_check_sig_cex :
    do_check_sig 2 G10Rc.ok 0x14 true Pkt.publicKey =
      SigCheckCall.err G10Rc.sigClassErr ∧
    SigCheckCall.err G10Rc.sigClassErr ≠ SigCheckCall.keySigCheck := by
  decide

/-- C5 amended: do_check_sig rejects a zero digest algorithm (with the
PubkeyAlgo code) and an unsupported one (with the check_digest_algo
code); for class 0x00 or 0x01 it calls signature_check on a copy of the
accumulated digest, or on a fresh context in the detached case; for
class in 0x10..0x13 (not 0x10..0x17: the byte mask AND NOT 3 covers four
values), 0x18, 0x20 or 0x30 it requires the root to be a public key or
public subkey and delegates to check_key_signature with the
self-signature out parameter, else fails with SigClass; every other
class, 0x14..0x17 included, fails with SigClass. -/
theorem do_check_sig_amended (a : Nat) (arc : G10Rc) (sc : Nat) (md : Bool)
    (rt : Pkt) :
    (a = 0 → do_check_sig a arc sc md rt = SigCheckCall.err G10Rc.pubkeyAlgo) ∧
    (a ≠ 0 → arc ≠ G10Rc.ok → do_check_sig a arc sc md rt = SigCheckCall.err arc) ∧
    (a ≠ 0 → arc = G10Rc.ok → (sc = 0 ∨ sc = 1) →
      do_check_sig a arc sc md rt = SigCheckCall.sigCheck md) ∧
    (a ≠ 0 → arc = G10Rc.ok →
      (sc &&& 0xfc = 0x10 ∨ sc = 0x18 ∨ sc = 0x20 ∨ sc = 0x30) →
      ((rt = Pkt.publicKey ∨ rt = Pkt.publicSubkey) →
         do_check_sig a arc sc md rt = SigCheckCall.keySigCheck) ∧
      (¬ (rt = Pkt.publicKey ∨ rt = Pkt.publicSubkey) →
         do_check_sig a arc sc md rt = SigCheckCall.err G10Rc.sigClassErr)) ∧
    (a ≠ 0 → arc = G10Rc.ok → ¬ (sc = 0 ∨ sc = 1) →
      ¬ (sc &&& 0xfc = 0x10 ∨ sc = 0x18 ∨ sc = 0x20 ∨ sc = 0x30) →
      do_check_sig a arc sc md rt = SigCheckCall.err G10Rc.sigClassErr) := by
  refine ⟨?_, ?_, ?_, ?_, ?_⟩
  · intro h0
    simp [do_check_sig, h0]
  · intro h0 harc
    simp [do_check_sig, h0, harc]
  · intro h0 harc hsc
    rcases hsc with rfl | rfl <;> simp [do_check_sig, h0, harc]
  · intro h0 harc hsc
    have hs16 : 16 ≤ sc := by
      rcases hsc with hm | rfl | rfl | rfl
      · have := Nat.and_le_left (n := sc) (m := 0xfc)
        omega
      all_goals omega
    have hsc0 : sc ≠ 0 := by omega
    have hsc1 : sc ≠ 1 := by omega
    constructor
    · intro hrt
      simp [do_check_sig, h0, harc, hsc0, hsc1, hsc, hrt]
    · intro hrt
      simp [do_check_sig, h0, harc, hsc0, hsc1, hsc, hrt]
  · intro h0 harc hsc hkey
    have hsc0 : sc ≠ 0 := fun he => hsc (Or.inl he)
    have hsc1 : sc ≠ 1 := fun he => hsc (Or.inr he)
    simp [do_check_sig, h0, harc, hsc0, hsc1, hkey]

/-- C5 witness: the amended theorem applied to a supported algorithm,
class 0x13 and a public-key root. -/
theorem do_check_sig_amended_w :
    do_check_sig 2 G10Rc.ok 0x13 true Pkt.publicKey = SigCheckCall.keySigCheck :=
  ((do_check_sig_amended 2 G10Rc.ok 0x13 true Pkt.publicKey).2.2.2.1
      (by decide) rfl (by decide)).1 (Or.inl rfl)

/-! ## Claim C6 -/

/-- C6: evaluation at the failing inputs.  For the one-line body hello
the terminating chunk is the length header 0, 5 and the five text bytes
with no zero-length trailer - buf[0] is 0, so the condition buf[0] and
buf[1] is false although there is text (the comment in the source says
the ending length header is written when there is some text, and the
claim says it is always written); and for the empty clearsigned body the
source fails its assertion len at least 4 instead of producing the
zero-length literal packet the claim and the spec describe. -/
theorem fake_packet_trailer_bug :
    fake_packet_chunk false [[104, 101, 108, 108, 111], sigLineBytes] =
      some [0, 5, 104, 101, 108, 108, 111] ∧
    some ([0, 5] ++ [104, 101, 108, 108, 111] ++ [0, 0]) ≠
      some ([0, 5] ++ [104, 101, 108, 108, 111] : List Nat) ∧
    fake_packet_chunk false [sigLineBytes] = none := by
  decide

/-! ## Claim C7 -/

/-- C7 counterexample: in full mode a UserId packet arriving while the
open list is rooted in a OnePassSig packet is appended to that list -
add_user_id checks only that a list exists, not its root type -
contradicting the claim that no UserId packet is ever appended to a
OnePassSig-rooted list. -/
theorem onepassAppend_cex :
    seqStep Mode.full
        { list := [Pkt.onePassSig], dek := false, lastWasSessionKey := 0,
          haveData := false } Pkt.userId =
      StepRes.cont
        { list := [Pkt.onePassSig, Pkt.userId], dek := false,
          lastWasSessionKey := 0, haveData := false } ∧
    Pkt.userId ≠ Pkt.onePassSig ∧ Pkt.userId ≠ Pkt.signature := by
  decide

/-- C7 amended: while the open list has a OnePassSig root in full mode,
one loop iteration never breaks, and the list after it is: the old list
with the packet appended exactly for OnePassSig, Signature, UserId,
PublicSubkey and SecretSubkey packets (no append guard looks at the root
type, only at non-emptiness); the one-packet list for PublicKey and
SecretKey (release_list fires first); and unchanged for every other
packet. -/
theorem onepassAppend_amended (s : SeqState) (p : Pkt)
    (hroot : s.list.headD Pkt.marker = Pkt.onePassSig) (hne : s.list ≠ []) :
    (seqStep Mode.full s p).stopped = false ∧
    (seqStep Mode.full s p).st.list =
      (if p = Pkt.publicKey ∨ p = Pkt.secretKey then [p]
       else if appendPkt p = true then s.list ++ [p]
       else s.list) := by
  obtain ⟨l, dek, lw, hd⟩ := s
  obtain ⟨q, t, rfl⟩ : ∃ q t, l = q :: t := by
    cases l with
    | nil => exact absurd rfl hne
    | cons q t => exact ⟨q, t, rfl⟩
  have hq : q = Pkt.onePassSig := by simpa using hroot
  subst hq
  cases p <;>
    simp [seqStep, dispatch, predispatch, haveDataUpd, StepRes.st, StepRes.stopped,
      add_user_id, add_subkey, add_signature, add_onepass_sig, release_list,
      proc_pubkey_enc, proc_symkey_enc, proc_encrypted_st, proc_plaintext_st,
      proc_compressed_st, proc_encrypted_model, appendPkt, Pkt.isEncrypted] <;>
    split_ifs <;> simp_all

/-- C7 witness: the amended theorem applied to appending a Signature
packet to a OnePassSig-rooted list. -/
theorem onepassAppend_amended_w :
    (seqStep Mode.full
        { list := [Pkt.onePassSig], dek := false, lastWasSessionKey := 0,
          haveData := false } Pkt.signature).st.list =
      [Pkt.onePassSig, Pkt.signature] := by
  have h := onepassAppend_amended
    { list := [Pkt.onePassSig], dek := false, lastWasSessionKey := 0,
      haveData := false } Pkt.signature (by decide) (by decide)
  rw [h.2]
  decide

/-! ## Claim C8 -/

/-- C8: the DEK lifecycle invariant of the sequencer loop.  First: after
any continuing iteration the DEK is held only if the packet just
dispatched was a session-key packet (PubkeyEnc or SymkeyEnc), i.e. the
DEK lives only from a session-key acquisition to the next packet.
Second: the pre-dispatch hygiene frees a held DEK before dispatching any
packet that is not Encrypted.  Third: after an Encrypted packet is
processed the DEK is freed and nulled.  Fourth: dispatching a PubkeyEnc
packet replaces any pending DEK - the result is held exactly when the
algorithm is supported and get_session_key succeeded, independent of the
previous DEK (the source frees the old one before the fresh allocation). -/
theorem dek_lifecycle :
    (∀ (m : Mode) (s : SeqState) (p : Pkt),
       (seqStep m s p).stopped = false →
       ((seqStep m s p).st).dek = true → p.isSessionKey = true) ∧
    (∀ (s : SeqState) (p : Pkt), p.isEncrypted = false →
       (predispatch s p).dek = false) ∧
    (∀ (m : Mode) (s : SeqState) (d : G10Rc),
       (seqStep m s (Pkt.encrypted d)).stopped = false →
       ((seqStep m s (Pkt.encrypted d)).st).dek = false) ∧
    (∀ (s : SeqState) (a k : Bool),
       ((seqStep Mode.full s (Pkt.pubkeyEnc a k)).st).dek = (a && k)) := by
  refine ⟨?_, ?_, ?_, ?_⟩
  · intro m s p
    obtain ⟨l, dk, lw, hv⟩ := s
    cases m <;> cases p <;> cases l <;>
      simp [seqStep, dispatch, predispatch, haveDataUpd, Pkt.isSessionKey,
        Pkt.isEncrypted, add_user_id, add_subkey, add_signature, add_onepass_sig,
        release_list, proc_pubkey_enc, proc_symkey_enc, proc_encrypted_st,
        proc_plaintext_st, proc_compressed_st, proc_encrypted_model,
        StepRes.st, StepRes.stopped] <;>
      split_ifs <;> (try simp_all) <;> (try split_ifs) <;> (try rfl)
  · intro s p hp
    unfold predispatch
    split_ifs with h
    · rfl
    · cases hsd : s.dek
      · rfl
      · exact absurd ⟨hsd, hp⟩ h
  · intro m s d
    cases m <;>
      simp [seqStep, dispatch, predispatch, haveDataUpd, Pkt.isEncrypted,
        proc_encrypted_st, proc_encrypted_model, StepRes.st, StepRes.stopped] <;>
      split_ifs <;> simp_all
  · intro s a k
    cases a <;> cases k <;>
      simp [seqStep, dispatch, predispatch, haveDataUpd, Pkt.isEncrypted,
        proc_pubkey_enc, StepRes.st, StepRes.stopped] <;>
      split_ifs <;> simp_all

/-- C8 witness: the pre-dispatch conjunct applied to a held DEK and a
Marker packet. -/
theorem dek_lifecycle_w :
    (predispatch
      { list := [], dek := true, lastWasSessionKey := 1, haveData := false }
      Pkt.marker).dek = false :=
  dek_lifecycle.2.1
    { list := [], dek := true, lastWasSessionKey := 1, haveData := false }
    Pkt.marker rfl

/-! ## Claim C9 -/

/-- C9: proc_encrypted with no held DEK derives one from the passphrase
prompt when no session-key packet preceded (last_was_session_key zero)
and decryption proceeds; when a session-key packet preceded but yielded
no DEK the result is the NoSecretKey error and decrypt_data is skipped;
and in every case the DEK is freed and last_was_session_key reset to 0
afterwards. -/
theorem proc_encrypted_paths (dek : Bool) (lastWas : Nat) (decRc : G10Rc) :
    (dek = false → lastWas = 0 →
      proc_encrypted_model dek lastWas decRc =
        { result := decRc, usedConventionalDek := true, decryptRan := true,
          dekAfter := false, lastAfter := 0 }) ∧
    (dek = false → lastWas ≠ 0 →
      proc_encrypted_model dek lastWas decRc =
        { result := G10Rc.noSeckey, usedConventionalDek := false,
          decryptRan := false, dekAfter := false, lastAfter := 0 }) ∧
    (proc_encrypted_model dek lastWas decRc).dekAfter = false ∧
    (proc_encrypted_model dek lastWas decRc).lastAfter = 0 := by
  refine ⟨?_, ?_, ?_, ?_⟩ <;>
    unfold proc_encrypted_model <;>
    try intro h1 h2
  · simp [h1, h2]
  · simp [h1, h2]
  · split_ifs <;> rfl
  · split_ifs <;> rfl

/-- C9 witness: the conventional path applied to a stream with no DEK
and no preceding session-key packet. -/
theorem proc_encrypted_paths_w :
    proc_encrypted_model false 0 G10Rc.ok =
      { result := G10Rc.ok, usedConventionalDek := true, decryptRan := true,
        dekAfter := false, lastAfter := 0 } :=
  (proc_encrypted_paths false 0 G10Rc.ok).1 rfl rfl

/-! ## Claim C10 -/

theorem takeWhile_all (p : Nat → Bool) :
    ∀ (l : List Nat), (∀ a ∈ l, p a = true) → l.takeWhile p = l := by
  intro l
  induction l with
  | nil => intro _; rfl
  | cons a t ih =>
    intro h
    simp [List.takeWhile, h a (by simp), ih fun x hx => h x (by simp [hx])]

theorem getLastD_tail58 (c : Nat) (t : List Nat)
    (h : (c :: t).getLastD 0 ≠ 58) : t.getLastD 0 ≠ 58 := by
  cases t with
  | nil => simp
  | cons b u => simpa [List.getLastD_cons] using h

theorem scanFpr_40 (p : List Nat) : scanFpr p 40 = ([], p) := by
  unfold scanFpr
  simp

/-- The fingerprint scan consumes exactly an interleaving of colons and
hex digits holding 40 hex digits in total (the last character being a
hex digit), collects the digits upcased, and leaves the rest. -/
theorem scanFpr_spec :
    ∀ (cs : List Nat) (j : Nat) (rest : List Nat),
      (∀ c ∈ cs, c = 58 ∨ hexdigitp c = true) →
      j + (cs.filter (fun c => c != 58)).length = 40 →
      cs.getLastD 0 ≠ 58 →
      scanFpr (cs ++ rest) j = ((cs.filter (fun c => c != 58)).map upChar, rest) := by
  intro cs
  induction cs with
  | nil =>
    intro j rest _ h40 _
    simp at h40
    subst h40
    simp [scanFpr_40]
  | cons c t ih =>
    intro j rest hmix h40 hlast
    have hflen : 0 < ((c :: t).filter (fun c => c != 58)).length := by
      rcases Nat.eq_zero_or_pos ((c :: t).filter (fun c => c != 58)).length with h0 | h
      · exfalso
        have hnil : (c :: t).filter (fun c => c != 58) = [] :=
          List.length_eq_zero.mp h0
        have hall := List.filter_eq_nil_iff.mp hnil
        have hall58 : ∀ a ∈ c :: t, a = 58 := by
          intro a ha
          have := hall a ha
          simpa using this
        have : (c :: t).getLastD 0 = 58 := by
          clear hlast hmix h40 hall hnil h0 ih
          induction t generalizing c with
          | nil => simpa using hall58 c (by simp)
          | cons b u ihu =>
            rw [List.getLastD_cons]
            exact ihu b (fun a ha => hall58 a (by simpa using Or.inr ha))
        exact hlast this
      · exact h
    have hj : j ≠ 40 := by omega
    by_cases hc : c = 58
    · subst hc
      have ht : t ≠ [] := by
        intro he
        subst he
        simp at hlast
      have hstep : scanFpr ((58 :: t) ++ rest) j = scanFpr (t ++ rest) j := by
        simp [scanFpr, hj]
      rw [hstep]
      have hrec := ih j rest (fun x hx => hmix x (by simp [hx]))
        (by simpa using h40) (getLastD_tail58 58 t hlast)
      rw [hrec]
      simp
    · have hhex : hexdigitp c = true := by
        rcases hmix c (by simp) with h58 | hh
        · exact absurd h58 hc
        · exact hh
      have hbne : (c != 58) = true := by simpa using hc
      have hfc : (c :: t).filter (fun c => c != 58) =
          c :: t.filter (fun c => c != 58) := by
        simp [List.filter, hbne]
      have hlt : t.getLastD 0 ≠ 58 ∨ t = [] := by
        cases t with
        | nil => exact Or.inr rfl
        | cons b u => exact Or.inl (getLastD_tail58 c (b :: u) hlast)
      have hstep : scanFpr ((c :: t) ++ rest) j =
          (upChar c :: (scanFpr (t ++ rest) (j + 1)).1,
           (scanFpr (t ++ rest) (j + 1)).2) := by
        simp [scanFpr, hj, hc, hhex]
      rw [hstep]
      rcases hlt with hlt | hnil
      · have hrec := ih (j + 1) rest (fun x hx => hmix x (by simp [hx]))
          (by rw [hfc] at h40; simp at h40; omega) hlt
        rw [hrec, hfc]
        simp
      · subst hnil
        have hj1 : j + 1 = 40 := by
          rw [hfc] at h40
          simp at h40
          omega
        rw [hfc]
        simp [hj1, scanFpr_40]

/-- One line of a clean prefix of the scan: skipped, or an entry whose
key differs from the fingerprint. -/
def passLine (fpr : List Nat) (l : List Nat) : Prop :=
  read_entry l = LineResult.skip ∨
    ∃ k, read_entry l = LineResult.entry k ∧ k ≠ fpr

theorem scanLines_pass (fpr : List Nat) :
    ∀ (pre rest : List (List Nat)), (∀ x ∈ pre, passLine fpr x) →
      scanLines fpr (pre ++ rest) = scanLines fpr rest := by
  intro pre
  induction pre with
  | nil => intro rest _; rfl
  | cons l t ih =>
    intro rest hpre
    rcases hpre l (by simp) with hskip | ⟨k, hent, hk⟩
    · simp only [List.cons_append, scanLines, hskip]
      exact ih rest fun x hx => hpre x (by simp [hx])
    · simp only [List.cons_append, scanLines, hent, if_neg hk]
      exact ih rest fun x hx => hpre x (by simp [hx])

theorem hexdigitp_range (c : Nat) (h : hexdigitp c = true) :
    (48 ≤ c ∧ c ≤ 57) ∨ (97 ≤ c ∧ c ≤ 102) ∨ (65 ≤ c ∧ c ≤ 70) := by
  simp [hexdigitp] at h
  tauto

/-- A well-formed list line - 40 hex digits with optional colons, ending
in a hex digit, then one blank, a two-letter country code and the line
feed - is returned as an entry whose key is the fingerprint with colons
skipped and lowercase hex digits uppercased. -/
theorem read_entry_wellformed (cs : List Nat) (c1 c2 : Nat)
    (hmix : ∀ c ∈ cs, c = 58 ∨ hexdigitp c = true)
    (h40 : (cs.filter (fun c => c != 58)).length = 40)
    (hlast : cs.getLastD 0 ≠ 58)
    (hc1 : 97 ≤ c1 ∧ c1 ≤ 122) (hc2 : 97 ≤ c2 ∧ c2 ≤ 122) :
    read_entry (cs ++ [32, c1, c2, 10]) =
      LineResult.entry ((cs.filter (fun c => c != 58)).map upChar) := by
  have hcs_ne : cs ≠ [] := by
    intro he
    subst he
    simp at h40
  obtain ⟨c0, cs', rfl⟩ : ∃ c0 cs', cs = c0 :: cs' := by
    cases cs with
    | nil => exact absurd rfl hcs_ne
    | cons a b => exact ⟨a, b, rfl⟩
  have hc0 := hmix c0 (by simp)
  have hc0f : c0 ≠ 0 ∧ c0 ≠ 10 ∧ c0 ≠ 35 ∧ spacep c0 = false := by
    rcases hc0 with rfl | hh
    · refine ⟨by omega, by omega, by omega, by simp [spacep]⟩
    · have hr := hexdigitp_range c0 hh
      refine ⟨by omega, by omega, by omega, ?_⟩
      simp [spacep]
      omega
  have hs : ((c0 :: cs') ++ [32, c1, c2, 10]).takeWhile (fun c => c ≠ 0) =
      (c0 :: cs') ++ [32, c1, c2, 10] := by
    apply takeWhile_all
    intro a ha
    simp only [decide_eq_true_eq]
    rw [List.mem_append] at ha
    rcases ha with ha | ha
    · rcases hmix a ha with rfl | hh
      · omega
      · have := hexdigitp_range a hh
        omega
    · simp at ha
      rcases ha with rfl | rfl | rfl | rfl <;> omega
  have hlast10 : (((c0 :: cs') ++ [32, c1, c2, 10]) : List Nat).getLastD 0 = 10 := by
    rw [show ([32, c1, c2, 10] : List Nat) = [32, c1, c2] ++ [10] from rfl,
      ← List.append_assoc]
    exact List.getLastD_concat 0 10 _
  have hscan := scanFpr_spec (c0 :: cs') 0 [32, c1, c2, 10] hmix (by omega) hlast
  have hsp1 : spacep c1 = false := by
    simp [spacep]
    omega
  unfold read_entry
  rw [hs]
  rw [if_neg (by simp)]
  rw [if_neg (by rw [hlast10]; omega)]
  rw [List.cons_append, List.dropWhile_cons_of_neg (by simp [hc0f.2.2.2])]
  rw [if_neg (by simp [hc0f.1, hc0f.2.1, hc0f.2.2.1])]
  rw [← List.cons_append, hscan]
  rw [if_neg (by simp [spacep, List.length_map, h40])]
  rw [List.drop_one]
  simp only [List.tail_cons]
  rw [List.dropWhile_cons_of_neg (by simp [hsp1])]
  rw [if_pos (by exact ⟨hc1.1, hc1.2, hc2.1, hc2.2, Or.inr rfl⟩)]

/-- C10 counterexample: a list file whose single line AB lacks the final
line feed (end of file truncates it).  The claim says a line without a
final newline yields IncompleteLine, but read_list returns LINE_TOO_LONG
for every nonempty line not ending in a newline; GPG_ERR_INCOMPLETE_LINE
is only reached when the line buffer starts with a NUL byte. -/
theorem qualifiedList_cex :
    gpgsm_is_in_qualified_list (some [65, 66]) [] = some GpgErr.lineTooLong ∧
    GpgErr.lineTooLong ≠ GpgErr.incompleteLine := by
  decide

/-- C10 amended: gpgsm_is_in_qualified_list returns 0 exactly when the
scan, reading the fgets lines in order, reaches an entry whose
40-hex-digit fingerprint (colons skipped, lowercase hex uppercased)
equals the certificate fingerprint string before hitting any malformed
line; a missing list file and an exhausted list yield NotFound (EOF is
mapped); a nonempty line not ending in a newline - whether overlong or
truncated by end of file - yields LineTooLong (IncompleteLine arises
only for a line starting with a NUL byte); and a malformed fingerprint
or country code yields BadData. -/
theorem qualifiedList_amended :
    (∀ fpr : List Nat,
       gpgsm_is_in_qualified_list none fpr = some GpgErr.notFound) ∧
    (∀ (fpr : List Nat) (ls : List (List Nat)),
       (∀ l ∈ ls, passLine fpr l) →
       scanLines fpr ls = some GpgErr.notFound) ∧
    (∀ (fpr : List Nat) (pre : List (List Nat)) (l : List Nat)
       (post : List (List Nat)),
       (∀ x ∈ pre, passLine fpr x) → read_entry l = LineResult.entry fpr →
       scanLines fpr (pre ++ l :: post) = none) ∧
    (∀ (fpr : List Nat) (pre : List (List Nat)) (l : List Nat)
       (post : List (List Nat)),
       (∀ x ∈ pre, passLine fpr x) → read_entry l = LineResult.errTooLong →
       scanLines fpr (pre ++ l :: post) = some GpgErr.lineTooLong) ∧
    (∀ (fpr : List Nat) (pre : List (List Nat)) (l : List Nat)
       (post : List (List Nat)),
       (∀ x ∈ pre, passLine fpr x) → read_entry l = LineResult.errIncomplete →
       scanLines fpr (pre ++ l :: post) = some GpgErr.incompleteLine) ∧
    (∀ (fpr : List Nat) (pre : List (List Nat)) (l : List Nat)
       (post : List (List Nat)),
       (∀ x ∈ pre, passLine fpr x) → read_entry l = LineResult.errBad →
       scanLines fpr (pre ++ l :: post) = some GpgErr.badData) ∧
    (∀ (cs : List Nat) (c1 c2 : Nat),
       (∀ c ∈ cs, c = 58 ∨ hexdigitp c = true) →
       (cs.filter (fun c => c != 58)).length = 40 →
       cs.getLastD 0 ≠ 58 →
       97 ≤ c1 ∧ c1 ≤ 122 → 97 ≤ c2 ∧ c2 ≤ 122 →
       read_entry (cs ++ [32, c1, c2, 10]) =
         LineResult.entry ((cs.filter (fun c => c != 58)).map upChar)) ∧
    (∀ (fpr : List Nat) (ls : List (List Nat)), scanLines fpr ls = none →
       ∃ l ∈ ls, read_entry l = LineResult.entry fpr) := by
  refine ⟨?_, ?_, ?_, ?_, ?_, ?_, ?_, ?_⟩
  · intro fpr
    rfl
  · intro fpr ls h
    have := scanLines_pass fpr ls [] h
    simpa using this
  · intro fpr pre l post hpre hent
    rw [scanLines_pass fpr pre (l :: post) hpre]
    simp [scanLines, hent]
  · intro fpr pre l post hpre herr
    rw [scanLines_pass fpr pre (l :: post) hpre]
    simp [scanLines, herr]
  · intro fpr pre l post hpre herr
    rw [scanLines_pass fpr pre (l :: post) hpre]
    simp [scanLines, herr]
  · intro fpr pre l post hpre herr
    rw [scanLines_pass fpr pre (l :: post) hpre]
    simp [scanLines, herr]
  · intro cs c1 c2 hmix h40 hlast hc1 hc2
    exact read_entry_wellformed cs c1 c2 hmix h40 hlast hc1 hc2
  · intro fpr ls
    induction ls with
    | nil => intro h; cases h
    | cons l t ih =>
      intro h
      cases hre : read_entry l with
      | skip =>
        simp only [scanLines, hre] at h
        obtain ⟨x, hx, hxe⟩ := ih h
        exact ⟨x, by simp [hx], hxe⟩
      | errTooLong => simp [scanLines, hre] at h
      | errIncomplete => simp [scanLines, hre] at h
      | errBad => simp [scanLines, hre] at h
      | entry k =>
        by_cases hk : k = fpr
        · subst hk
          exact ⟨l, by simp, hre⟩
        · simp only [scanLines, hre, if_neg hk] at h
          obtain ⟨x, hx, hxe⟩ := ih h
          exact ⟨x, by simp [hx], hxe⟩

/-- C10 witness: the well-formed-entry conjunct applied to a line of 40
hex digits A followed by the country code dd. -/
theorem qualifiedList_amended_w :
    read_entry (List.replicate 40 65 ++ [32, 100, 100, 10]) =
      LineResult.entry (List.replicate 40 65) := by
  have h := qualifiedList_amended.2.2.2.2.2.2.1 (List.replicate 40 65) 100 100
    (by decide) (by decide) (by decide) (by decide) (by decide)
  rw [h]
  decide
